import Mathlib

/-!
Verification of the LEN_scraper repository (scrape.py, lennar_scraper.py,
zillow_lennar_scraper.py) against its natural-language specification.

The Python sources are shallowly embedded below: pure helpers become Lean
functions, the retry / scroll / crawl loops become explicit recursions, and
exception-driven control flow is modelled with `Option` / `Except`.  Selector
and regex lookups against live HTML are modelled by card records carrying the
results of those queries (the spec explicitly excludes the CSS-selector and
regex literals tied to one website's markup from the core), while every regex
that processes already-extracted text is implemented faithfully char by char.
-/

/-! ## String utilities shared by both scrapers -/

/-- Python `s.lower()` restricted to ASCII, as a char list. -/
def lowerList (s : String) : List Char :=
  s.toList.map Char.toLower

/-- Python `\s*`: drop leading whitespace. -/
def skipWs (cs : List Char) : List Char :=
  cs.dropWhile (fun c => c.isWhitespace)

/-- Python `s.strip()`: remove leading and trailing whitespace. -/
def pyStrip (s : String) : String :=
  String.mk (((s.toList.dropWhile Char.isWhitespace).reverse.dropWhile
    Char.isWhitespace).reverse)

/-- Python `s.split(',')`: every comma splits, empty parts kept. -/
def splitCommas : List Char → List (List Char)
  | [] => [[]]
  | c :: t =>
    if c = ',' then [] :: splitCommas t
    else
      match splitCommas t with
      | [] => [[c]]
      | h :: r => (c :: h) :: r

/-- Python `sub in hay` substring test on char lists. -/
def containsSub (hay sub : List Char) : Bool :=
  match hay with
  | [] => sub.isEmpty
  | c :: t => sub.isPrefixOf (c :: t) || containsSub t sub

/-- Char class of the regex `[\d,.]` used by `_extract_number`. -/
def numChar (c : Char) : Bool :=
  c.isDigit || c == ',' || c == '.'

/-- Embeds `LennarScraper._extract_number`: first match of `[\d,.]+`, else `""`. -/
def extract_number (s : String) : String :=
  String.mk ((s.toList.dropWhile (fun c => !(numChar c))).takeWhile numChar)

/-- Embeds `.replace(',', '')` on a matched group. -/
def removeCommas (s : String) : String :=
  String.mk (s.toList.filter (fun c => c ≠ ','))

/-! ## Price parsing (`LennarScraper._parse_price`, `ZillowLennarScraper._extract_price`) -/

/-- Embeds `int(clean)` on a digit string, most significant digit first. -/
def digitsToNat (ds : List Char) : Nat :=
  ds.foldl (fun acc c => 10 * acc + (c.toNat - 48)) 0

/-- Embeds `LennarScraper._parse_price`: `clean = re.sub(r'[^\d]', '', text)`;
`int(clean)` when the remainder is nonempty, `None` otherwise. -/
def parse_price (s : String) : Option Nat :=
  let clean := s.toList.filter Char.isDigit
  if clean.isEmpty then none else some (digitsToNat clean)

/-- Embeds `ZillowLennarScraper._extract_price`: same body as `_parse_price`. -/
def extract_price (s : String) : Option Nat :=
  let clean := s.toList.filter Char.isDigit
  if clean.isEmpty then none else some (digitsToNat clean)

/-! ## House-type inference -/

/-- Embeds `LennarScraper._parse_home_card`, house-type fallback branch: keyword
search over `card.get_text().lower()` with a `"Single Family"` default. -/
def lennarInferHouseType (text : String) : String :=
  if containsSub (lowerList text) "townhome".toList ||
      containsSub (lowerList text) "townhouse".toList then "Townhome"
  else if containsSub (lowerList text) "condo".toList then "Condominium"
  else if containsSub (lowerList text) "single family".toList ||
      containsSub (lowerList text) "single-family".toList then "Single Family"
  else "Single Family"

/-- Embeds `ZillowLennarScraper._parse_details`, house-type branch: keyword search
over `details_text.lower()`; with no keyword the field is left unset (`""`). -/
def zillowInferHouseType (details_text : String) : String :=
  if containsSub (lowerList details_text) "condo".toList then "Condominium"
  else if containsSub (lowerList details_text) "townhouse".toList ||
      containsSub (lowerList details_text) "townhome".toList then "Townhome"
  else if containsSub (lowerList details_text) "house".toList ||
      containsSub (lowerList details_text) "single family".toList then "Single Family"
  else ""

/-! ## Search for numeric patterns (`re.search` of the bed/bath/sqft regexes)

Each pattern has the shape `(RUN)\s*(?:alt1|alt2|...)` where `RUN` is `\d+`,
`\d+(?:\.\d+)?` or `[\d,]+` and every alternative is a literal keyword,
possibly with an inner `\s*` (as in `sq\s*ft`).  `re.search` tries each start
position from the left; at a fixed start the greedy run is forced (shrinking
it leaves a digit where a space or letter is required), so matching is
deterministic per position. -/

/-- One alternative, given as literal segments separated by `\s*`. -/
def matchSegs : List (List Char) → List Char → Bool
  | [], _ => true
  | seg :: rest, cs => seg.isPrefixOf cs && matchSegs rest (skipWs (cs.drop seg.length))

/-- Embeds `(?:alt1|alt2|...)` as a boolean match at the current position. -/
def matchAlts (alts : List (List (List Char))) (cs : List Char) : Bool :=
  alts.any (fun segs => matchSegs segs cs)

/-- Attempt the whole pattern anchored at `cs`; returns group 1 on success.
`allowDot` selects `\d+(?:\.\d+)?` over `\d+`; `commas` selects `[\d,]+`. -/
def tryNumAt (allowDot commas : Bool) (alts : List (List (List Char))) (cs : List Char) :
    Option String :=
  if commas then
    let run := cs.takeWhile (fun c => c.isDigit || c == ',')
    if run.isEmpty then none
    else if matchAlts alts (skipWs (cs.drop run.length)) then some (String.mk run) else none
  else
    let run := cs.takeWhile Char.isDigit
    if run.isEmpty then none
    else
      let rest := cs.drop run.length
      let full :=
        if allowDot then
          match rest with
          | '.' :: r2 =>
            let frac := r2.takeWhile Char.isDigit
            if frac.isEmpty then (run, rest)
            else (run ++ '.' :: frac, r2.drop frac.length)
          | _ => (run, rest)
        else (run, rest)
      if matchAlts alts (skipWs full.2) then some (String.mk full.1) else none

/-- Embeds `re.search`: first start position (left to right) where the pattern
matches; the searched text is lowercased by the callers, mirroring `re.I`. -/
def searchNum (allowDot commas : Bool) (alts : List (List (List Char))) :
    List Char → Option String
  | [] => none
  | c :: cs =>
    match tryNumAt allowDot commas alts (c :: cs) with
    | some g => some g
    | none => searchNum allowDot commas alts cs

/-- Literal keyword alternatives as segment lists. -/
def altsOf (words : List String) : List (List (List Char)) :=
  words.map (fun w => [w.toList])

/-! ## Listing records (the two dataclasses and the combined dict)

`features` (never populated) and the float-valued `latitude`/`longitude`
provenance fields (set only from JSON input, never computed) are omitted;
`scraped_at` is an externally supplied timestamp string. -/

/-- Dataclass `LennarListing` with its field defaults. -/
structure LennarListing where
  community_name : String := ""
  location : String := ""
  city : String := ""
  state : String := ""
  zip_code : String := ""
  price : String := ""
  price_numeric : Option Nat := none
  house_type : String := ""
  bedrooms : String := ""
  bathrooms : String := ""
  sqft : String := ""
  status : String := ""
  url : String := ""
  plan_name : String := ""
  scraped_at : String := ""
  deriving DecidableEq

/-- Dataclass `ZillowLennarListing` with its field defaults. -/
structure ZillowLennarListing where
  address : String := ""
  city : String := ""
  state : String := ""
  zip_code : String := ""
  price : String := ""
  price_numeric : Option Nat := none
  house_type : String := ""
  bedrooms : String := ""
  bathrooms : String := ""
  sqft : String := ""
  community_name : String := ""
  builder : String := "Lennar"
  status : String := ""
  listing_url : String := ""
  image_url : String := ""
  scraped_at : String := ""
  deriving DecidableEq

/-- The dict built per record by `scrape.combine_results`. -/
structure CombinedRecord where
  source : String
  community_name : String
  address : String
  city : String
  state : String
  zip_code : String
  price : String
  price_numeric : Option Nat
  house_type : String
  bedrooms : String
  bathrooms : String
  sqft : String
  plan_name : String
  status : String
  url : String
  scraped_at : String
  deriving DecidableEq

/-! ## Card models

A card records the results of the structural selector queries run against it
(`select_one(...)` returning stripped text or nothing), the card's full text
(`get_text()`), and whether touching the card raises — the per-card parsers
wrap their whole body in `try/except`. -/

/-- A Lennar home card (`_parse_home_card` input). -/
structure Card where
  raises : Bool := false
  nameSel : Option String := none
  priceSel : Option String := none
  typeSel : Option String := none
  bedsSel : Option String := none
  bathsSel : Option String := none
  sqftSel : Option String := none
  addrSel : Option String := none
  linkSel : Option String := none
  statusSel : Option String := none
  text : String := ""
  deriving DecidableEq

/-- A Zillow property card (`_parse_zillow_card` input). -/
structure ZCard where
  raises : Bool := false
  addrSel : Option String := none
  priceSel : Option String := none
  detailsSel : Option String := none
  linkSel : Option String := none
  imgSel : Option String := none
  builderSel : Option String := none
  text : String := ""
  deriving DecidableEq

/-- Embeds `urllib.parse.urljoin`, an external collaborator, approximated: absolute
URLs stand alone, anything else is resolved against the base. -/
def urljoin (base href : String) : String :=
  if "http".toList.isPrefixOf href.toList then href else base ++ href

def lennarBaseUrl : String := "https://www.lennar.com"

def zillowBaseUrl : String := "https://www.zillow.com"

/-- Embeds `LennarScraper._parse_home_card` body: the listing built from a card's
query results (selector hit, else regex fallback over the card text, else the
dataclass default). -/
def buildLennarListing (card : Card) (community_name city state zip_code : String) :
    LennarListing :=
  { community_name := community_name
    city := city
    state := state
    zip_code := zip_code
    plan_name := card.nameSel.getD ""
    price := card.priceSel.getD ""
    price_numeric := card.priceSel.bind parse_price
    house_type :=
      match card.typeSel with
      | some t => t
      | none => lennarInferHouseType card.text
    bedrooms :=
      match card.bedsSel with
      | some t => extract_number t
      | none =>
        (searchNum false false (altsOf ["bed", "br", "bedroom"]) (lowerList card.text)).getD ""
    bathrooms :=
      match card.bathsSel with
      | some t => extract_number t
      | none =>
        (searchNum true false (altsOf ["bath", "ba", "bathroom"]) (lowerList card.text)).getD ""
    sqft :=
      match card.sqftSel with
      | some t => extract_number t
      | none =>
        match searchNum false true [[ "sq".toList, "ft".toList ], ["sqft".toList], ["sf".toList]]
            (lowerList card.text) with
        | some m => removeCommas m
        | none => ""
    location := card.addrSel.getD ""
    url :=
      match card.linkSel with
      | some href => urljoin lennarBaseUrl href
      | none => ""
    status := card.statusSel.getD ""
    scraped_at := "" }

/-- Embeds `LennarScraper._parse_home_card`: any exception is caught and logged and
`None` is returned; a listing is returned only when the truthiness check
`plan_name or price or community_name` passes. -/
def parse_home_card (card : Card) (community_name city state zip_code : String) :
    Option LennarListing :=
  if card.raises then none
  else if (buildLennarListing card community_name city state zip_code).plan_name ≠ "" ∨
      (buildLennarListing card community_name city state zip_code).price ≠ "" ∨
      (buildLennarListing card community_name city state zip_code).community_name ≠ "" then
    some (buildLennarListing card community_name city state zip_code)
  else none

/-! ## Zillow address components (`_parse_address_components`)

The primary pattern is `re.match(r'(.+?),\s*([^,]+),\s*([A-Z]{2})\s*(\d{5})?', full)`.
Group 1 is lazy, so the match driver grows it one character at a time and
tries the deterministic tail after every comma. -/

/-- The tail `\s*([^,]+),\s*([A-Z]{2})\s*(\d{5})?` after the first comma. -/
def matchAddrTail (cs : List Char) : Option (String × String × Option String) :=
  let cs1 := skipWs cs
  let seg := cs1.takeWhile (fun c => c ≠ ',')
  if seg.isEmpty then none
  else
    match cs1.drop seg.length with
    | ',' :: cs2 =>
      match skipWs cs2 with
      | a :: b :: cs4 =>
        if a.isUpper && b.isUpper then
          let zs := (skipWs cs4).takeWhile Char.isDigit
          let zp := if zs.length ≥ 5 then some (String.mk (zs.take 5)) else none
          some (String.mk seg, String.mk [a, b], zp)
        else none
      | _ => none
    | _ => none

/-- Lazy-group-1 driver: `pre` holds the (reversed) characters committed to
group 1 so far; at every comma with nonempty group 1 the tail is tried. -/
def parseAddrRegexAux : List Char → List Char → Option (String × String × String × Option String)
  | _, [] => none
  | pre, c :: rest =>
    if c == ',' && !pre.isEmpty then
      match matchAddrTail rest with
      | some (cty, st, zp) => some (String.mk pre.reverse, cty, st, zp)
      | none => parseAddrRegexAux (c :: pre) rest
    else parseAddrRegexAux (c :: pre) rest

/-- The whole anchored pattern; returns `(street, city, state, zip?)`. -/
def parseAddrRegex (full : String) : Option (String × String × String × Option String) :=
  parseAddrRegexAux [] full.toList

/-- Embeds `ZillowLennarScraper._parse_address_components`: regex path, else the
comma-split fallback, else leave the listing unchanged. -/
def parse_address_components (l : ZillowLennarListing) (full : String) : ZillowLennarListing :=
  match parseAddrRegex full with
  | some (street, cty, st, zp) =>
    { l with
      address := pyStrip street
      city := pyStrip cty
      state := pyStrip st
      zip_code :=
        match zp with
        | some z => pyStrip z
        | none => l.zip_code }
  | none =>
    match splitCommas full.toList with
    | p0 :: p1 :: rest =>
      match rest with
      | [] => { l with address := pyStrip (String.mk p0) }
      | _ =>
        { l with address := pyStrip (String.mk p0), city := pyStrip (String.mk p1) }
    | _ => l

/-- Embeds `ZillowLennarScraper._parse_details`: bed/bath/sqft regex search over the
details text (with `re.I`), then the house-type keyword branch. -/
def parse_details (l : ZillowLennarListing) (details_text : String) : ZillowLennarListing :=
  let low := lowerList details_text
  let l1 :=
    match searchNum false false (altsOf ["bd", "bed", "bds", "beds"]) low with
    | some m => { l with bedrooms := m }
    | none => l
  let l2 :=
    match searchNum true false (altsOf ["ba", "bath", "baths"]) low with
    | some m => { l1 with bathrooms := m }
    | none => l1
  let l3 :=
    match searchNum false true [["sqft".toList], [ "sq".toList, "ft".toList ]] low with
    | some m => { l2 with sqft := removeCommas m }
    | none => l2
  let ht := zillowInferHouseType details_text
  if ht = "" then l3 else { l3 with house_type := ht }

/-- The listing a Zillow card yields before the final truthiness check: the
successive field-group mutations of `_parse_zillow_card`. -/
def buildZillowListing (card : ZCard) : ZillowLennarListing :=
  let l0 : ZillowLennarListing := {}
  let l1 :=
    match card.addrSel with
    | some full => parse_address_components { l0 with address := full } full
    | none => l0
  let l2 :=
    match card.priceSel with
    | some t => { l1 with price := t, price_numeric := extract_price t }
    | none => l1
  let l3 :=
    match card.detailsSel with
    | some t => parse_details l2 t
    | none => l2
  let l4 :=
    match card.linkSel with
    | some href => { l3 with listing_url := urljoin zillowBaseUrl href }
    | none => l3
  let l5 :=
    match card.imgSel with
    | some src => { l4 with image_url := src }
    | none => l4
  match card.builderSel with
  | some t =>
    if containsSub (lowerList t) "lennar".toList then { l5 with builder := "Lennar" } else l5
  | none => l5

/-- Embeds `ZillowLennarScraper._parse_zillow_card`: exceptions are caught and yield
`None`; a listing is returned only when `listing.address` is truthy. -/
def parse_zillow_card (card : ZCard) : Option ZillowLennarListing :=
  if card.raises then none
  else if (buildZillowListing card).address ≠ "" then some (buildZillowListing card)
  else none

/-! ## Community pages and the crawl loops (`scrape_all_listings`,
`scrape_multiple_locations`)

A fetched community page contributes three card groups (the home-card,
floor-plan and quick-move-in selector unions); the location parse of the page
header supplies `city`/`state`/`zip`, passed through as arguments since no
claim depends on it. -/

/-- The card groups of one community page. -/
structure CommunityDoc where
  homeCards : List Card := []
  planCards : List Card := []
  qmiCards : List Card := []

/-- Embeds `LennarScraper.get_listings_from_community`: a failed fetch
(`_make_request` returned `None`) is logged and yields the empty list; cards
from the quick-move-in section get `status = "Move-In Ready"`. -/
def get_listings_from_community (resp : Option CommunityDoc)
    (community_name city state zip_code : String) : List LennarListing :=
  match resp with
  | none => []
  | some doc =>
    let l1 := doc.homeCards.filterMap
      (fun c => parse_home_card c community_name city state zip_code)
    let l2 := doc.planCards.filterMap
      (fun c => parse_home_card c community_name city state zip_code)
    let l3 := doc.qmiCards.filterMap (fun c =>
      (parse_home_card c community_name city state zip_code).map
        (fun l => { l with status := "Move-In Ready" }))
    l1 ++ l2 ++ l3

/-- The per-community loop of `LennarScraper.scrape_all_listings`: fetching
and parsing one community may raise; the exception is logged and the sibling
traversal continues. -/
def scrapeCommunityList (fetch : String → Except String (List LennarListing)) :
    List String → List LennarListing
  | [] => []
  | c :: cs =>
    match fetch c with
    | .ok ls => ls ++ scrapeCommunityList fetch cs
    | .error _ => scrapeCommunityList fetch cs

/-- Embeds `LennarScraper.scrape_all_listings`: states in order, the communities
discovered in each state in order, accumulating every community's listings. -/
def scrape_all_listings (get_communities : String → List String)
    (fetch : String → Except String (List LennarListing)) :
    List String → List LennarListing
  | [] => []
  | st :: sts =>
    scrapeCommunityList fetch (get_communities st) ++
      scrape_all_listings get_communities fetch sts

/-- Embeds `ZillowLennarScraper.scrape_multiple_locations`: an exception while
searching one location is logged and the loop continues. -/
def scrape_multiple_locations
    (search : String → Except String (List ZillowLennarListing)) :
    List String → List ZillowLennarListing
  | [] => []
  | loc :: rest =>
    match search loc with
    | .ok ls => ls ++ scrape_multiple_locations search rest
    | .error _ => scrape_multiple_locations search rest

/-! ## `_make_request` retry loop (both scrapers)

Both `LennarScraper._make_request` and `ZillowLennarScraper._make_request`
run `for attempt in range(retry_count)`, catch every
`requests.exceptions.RequestException` — malformed-URL and HTTP-status errors
included, since `MissingSchema`, `InvalidURL` and `HTTPError` are all
subclasses — sleep `2 ** attempt` seconds when `attempt < retry_count - 1`,
and return `None` once the loop is exhausted.  An attempt's outcome is a
response or a raised exception of some kind. -/

/-- Failure classes: a transient network error, a malformed URL, or an HTTP
4xx status other than 429 (`raise_for_status`). -/
inductive FailKind where
  | transient
  | badUrl
  | clientError
  deriving DecidableEq

/-- Outcome of one attempt: a response (status made it through
`raise_for_status`) or a raised `RequestException`. -/
inductive AttemptResult where
  | ok (resp : Nat)
  | exn (kind : FailKind)
  deriving DecidableEq

/-- Whether an attempt raised. -/
def AttemptResult.isFail : AttemptResult → Bool
  | .ok _ => false
  | .exn _ => true

/-- Observable trace of one `_make_request` call. -/
structure RequestTrace where
  result : Option Nat
  sleeps : List Nat
  numAttempts : Nat
  deriving DecidableEq

/-- The retry loop, by remaining iterations: `rem` iterations left, the next
one being attempt number `attempt`.  `rem = 0` is loop exhaustion
(`return None`); a sleep of `2 ^ attempt` happens only when another
iteration follows (`attempt < retry_count - 1`). -/
def makeRequestLoop (f : Nat → AttemptResult) : Nat → Nat → RequestTrace
  | 0, _ => ⟨none, [], 0⟩
  | rem + 1, attempt =>
    match f attempt with
    | .ok r => ⟨some r, [], 1⟩
    | .exn _ =>
      let rest := makeRequestLoop f rem (attempt + 1)
      if rem = 0 then ⟨rest.result, rest.sleeps, rest.numAttempts + 1⟩
      else ⟨rest.result, 2 ^ attempt :: rest.sleeps, rest.numAttempts + 1⟩

/-- Embeds `_make_request` with its default `retry_count = 3`. -/
def make_request (f : Nat → AttemptResult) (retry_count : Nat := 3) : RequestTrace :=
  makeRequestLoop f retry_count 0

/-! ## Scroll loops (`scrape_with_selenium`, `_scrape_with_selenium`)

`h n` is the `document.body.scrollHeight` observed after `n` scroll triggers
(`h 0` is the read before the loop).  The Lennar loop is `while True` with no
trigger cap, so it is modelled with explicit fuel: `some k` means the loop
terminated after exactly `k` triggers, `none` that it was still running when
the fuel ran out. -/

/-- Embeds `LennarScraper.scrape_with_selenium` scroll loop: scroll, observe, stop
when the height is unchanged since the previous observation. -/
def lennarScrollLoop (h : Nat → Nat) : Nat → Nat → Nat → Option Nat
  | 0, _, _ => none
  | fuel + 1, last, count =>
    let newHeight := h (count + 1)
    if newHeight = last then some (count + 1)
    else lennarScrollLoop h fuel newHeight (count + 1)

/-- Number of scroll triggers the Lennar loop performs before stopping,
within `fuel` iterations. -/
def lennarScrollCount (h : Nat → Nat) (fuel : Nat) : Option Nat :=
  lennarScrollLoop h fuel (h 0) 0

/-- Embeds `ZillowLennarScraper._scrape_with_selenium`: `for _ in range(5)`, one
scroll trigger per iteration, no height observation at all. -/
def zillowScrollTriggers : Nat := (List.range 5).length

/-! ## `scrape.combine_results` and its deduplication

The Python loop keeps one shared `seen_addresses` set of `(str, str)` keys,
walks the Lennar listings then the Zillow listings, and appends the converted
dict of every record whose key is new. -/

/-- Merge keys are pairs of strings: `(listing.location or
listing.community_name, listing.price)` for Lennar records, `(listing.address,
listing.price)` for Zillow records — `price` is the raw display string. -/
abbrev MergeKey := String × String

/-- Key of a Lennar record: Python `or` takes the community name exactly when
`location` is the empty string. -/
def lennarKey (l : LennarListing) : MergeKey :=
  (if l.location = "" then l.community_name else l.location, l.price)

/-- Key of a Zillow record. -/
def zillowKey (l : ZillowLennarListing) : MergeKey :=
  (l.address, l.price)

/-- The dict appended for a Lennar record. -/
def lennarToCombined (l : LennarListing) : CombinedRecord :=
  { source := "Lennar.com"
    community_name := l.community_name
    address := l.location
    city := l.city
    state := l.state
    zip_code := l.zip_code
    price := l.price
    price_numeric := l.price_numeric
    house_type := l.house_type
    bedrooms := l.bedrooms
    bathrooms := l.bathrooms
    sqft := l.sqft
    plan_name := l.plan_name
    status := l.status
    url := l.url
    scraped_at := l.scraped_at }

/-- The dict appended for a Zillow record (`plan_name` fixed to `""`). -/
def zillowToCombined (l : ZillowLennarListing) : CombinedRecord :=
  { source := "Zillow"
    community_name := l.community_name
    address := l.address
    city := l.city
    state := l.state
    zip_code := l.zip_code
    price := l.price
    price_numeric := l.price_numeric
    house_type := l.house_type
    bedrooms := l.bedrooms
    bathrooms := l.bathrooms
    sqft := l.sqft
    plan_name := ""
    status := l.status
    url := l.listing_url
    scraped_at := l.scraped_at }

/-- First loop of `combine_results`, threading the `seen_addresses` set
(modelled as the list of keys inserted so far). -/
def combineLennarLoop (seen : List MergeKey) :
    List LennarListing → List CombinedRecord × List MergeKey
  | [] => ([], seen)
  | l :: ls =>
    if lennarKey l ∈ seen then combineLennarLoop seen ls
    else
      let rest := combineLennarLoop (lennarKey l :: seen) ls
      (lennarToCombined l :: rest.1, rest.2)

/-- Second loop of `combine_results`, continuing with the same seen set. -/
def combineZillowLoop (seen : List MergeKey) :
    List ZillowLennarListing → List CombinedRecord × List MergeKey
  | [] => ([], seen)
  | l :: ls =>
    if zillowKey l ∈ seen then combineZillowLoop seen ls
    else
      let rest := combineZillowLoop (zillowKey l :: seen) ls
      (zillowToCombined l :: rest.1, rest.2)

/-- Embeds `scrape.combine_results`: Lennar stream first, then the Zillow stream,
one shared seen set.  (A `None` scraper or empty `listings` just skips the
corresponding loop, which the empty list models.) -/
def combine_results (lennar : List LennarListing) (zillow : List ZillowLennarListing) :
    List CombinedRecord :=
  let p1 := combineLennarLoop [] lennar
  let p2 := combineZillowLoop p1.2 zillow
  p1.1 ++ p2.1

/-- The merged input as one keyed stream, Lennar records first — the order
`combine_results` traverses its inputs in. -/
def keyedStream (lennar : List LennarListing) (zillow : List ZillowLennarListing) :
    List (MergeKey × CombinedRecord) :=
  lennar.map (fun l => (lennarKey l, lennarToCombined l)) ++
    zillow.map (fun z => (zillowKey z, zillowToCombined z))

/-- The merge key as recomputed from an output dict (the `source` field
records which scraper the dict came from). -/
def combinedKey (r : CombinedRecord) : MergeKey :=
  (if r.source = "Lennar.com" then
     (if r.address = "" then r.community_name else r.address)
   else r.address,
   r.price)

/-! ## Generic first-seen deduplication -/

/-- Seen-set-threading dedup, the shape of the Python loops. -/
def dedupSeen {α κ : Type} [DecidableEq κ] (key : α → κ) (seen : List κ) :
    List α → List α
  | [] => []
  | x :: xs =>
    if key x ∈ seen then dedupSeen key seen xs
    else x :: dedupSeen key (key x :: seen) xs

/-- The seen set after a dedup pass. -/
def accKeys {α κ : Type} [DecidableEq κ] (key : α → κ) (seen : List κ) :
    List α → List κ
  | [] => seen
  | x :: xs =>
    if key x ∈ seen then accKeys key seen xs
    else accKeys key (key x :: seen) xs

/-- Declarative first-seen-wins: keep the head, drop every later element
sharing its key, recurse. -/
def firstWins {α κ : Type} [DecidableEq κ] (key : α → κ) : List α → List α
  | [] => []
  | x :: xs => x :: firstWins key (xs.filter (fun y => key y ≠ key x))
termination_by s => s.length
decreasing_by
  simp only [List.length_cons]
  exact Nat.lt_succ_of_le (List.length_filter_le _ _)

/-! ## `search_zillow_new_construction` (single-location Zillow search)

The embedded-script JSON extraction (`_extract_script_data` /
`_parse_script_listings`) consumes Zillow's internal JSON payload; its output
list is taken as a parameter.  The card loop appends a parsed card when the
builder filter is off, or when `'lennar'` occurs in the card's text. -/

/-- The card loop of `search_zillow_new_construction`. -/
def zillowCardListings (cards : List ZCard) (builder_filter : Bool) :
    List ZillowLennarListing :=
  match cards with
  | [] => []
  | card :: rest =>
    let tail := zillowCardListings rest builder_filter
    match parse_zillow_card card with
    | none => tail
    | some l =>
      if builder_filter then
        if containsSub (lowerList card.text) "lennar".toList then l :: tail else tail
      else l :: tail

/-- Dedup key used at the end of `search_zillow_new_construction`. -/
def zillowSearchKey (l : ZillowLennarListing) : String × String :=
  (l.address, l.zip_code)

/-- Embeds `ZillowLennarScraper.search_zillow_new_construction`: parsed cards, then
script-derived listings, then first-seen dedup by `(address, zip_code)`. -/
def search_zillow_new_construction (cards : List ZCard)
    (scriptListings : List ZillowLennarListing) (builder_filter : Bool := true) :
    List ZillowLennarListing :=
  let listings := zillowCardListings cards builder_filter ++ scriptListings
  dedupSeen zillowSearchKey [] listings

/-! ## Spec-side identity key (for claim C1)

Modelled from the spec: "identity key for deduplication is
`(normalizedAddressOrCommunity, priceNumeric)`, case/whitespace-insensitive"
and "if neither address nor community name is present, or price is absent,
the record cannot be deduplicated against others". -/

/-- Case/whitespace normalization, following the spec's words. -/
def specNormalize (s : String) : String :=
  pyStrip (String.mk (lowerList s))

/-- Modelled from the spec: the identity key the spec prescribes for a Lennar
record, `none` when the record is unmatchable. -/
def lennarSpecKey (l : LennarListing) : Option (String × Nat) :=
  match l.price_numeric with
  | none => none
  | some p =>
    let name := if l.location = "" then l.community_name else l.location
    if name = "" then none else some (specNormalize name, p)

/-! ## Concrete records used by counterexamples and witnesses -/

/-- A record with no address, no community name and no price. -/
def cNoKey1 : LennarListing := { plan_name := "Plan A" }

/-- A second such record, differing from `cNoKey1`. -/
def cNoKey2 : LennarListing := { plan_name := "Plan B" }

/-- Same address and same numeric price as `dPrice2`, different display
string. -/
def dPrice1 : LennarListing :=
  { location := "123 Main St", price := "$450,000", price_numeric := some 450000 }

/-- Same address and same numeric price as `dPrice1`, different display
string. -/
def dPrice2 : LennarListing :=
  { location := "123 Main St", price := "450000", price_numeric := some 450000 }

/-- A simple Zillow listing used in witnesses. -/
def wZillow1 : ZillowLennarListing :=
  { address := "9 Oak Ave", zip_code := "75201", price := "$300,000" }

/-- Attempt outcomes: 3 transient failures, then a response. -/
def failThriceThenOk : Nat → AttemptResult :=
  fun n => if n < 3 then .exn .transient else .ok 200

/-- Attempt outcomes: 2 transient failures, then a response. -/
def failTwiceThenOk : Nat → AttemptResult :=
  fun n => if n < 2 then .exn .transient else .ok 200

/-- Two attempt-outcome functions agree in shape when they succeed with the
same response at the same attempts and otherwise both raise (with possibly
different error classes). -/
def sameShape : AttemptResult → AttemptResult → Prop
  | .ok a, .ok b => a = b
  | .exn _, .exn _ => True
  | _, _ => False

/-- One listing per community, for the fault-isolation witness. -/
def wCommunityListing (c : String) : LennarListing :=
  { plan_name := c }

/-- A fetcher whose node `"c2"` always fails. -/
def wFetch : String → Except String (List LennarListing) :=
  fun c => if c = "c2" then .error "node failure" else .ok [wCommunityListing c]

/-- A malformed Lennar card: parsing it raises. -/
def wBadCard : Card :=
  { raises := true, nameSel := some "X" }

/-- A malformed Zillow card: parsing it raises. -/
def wBadZCard : ZCard :=
  { raises := true }

/-- The keyword occurs as a (case-insensitive) substring of the text — the
spec-level reading of Python's `kw in text.lower()`. -/
def hasKeyword (s kw : String) : Prop :=
  ∃ pre post, lowerList s = pre ++ kw.toList ++ post

/-! # Theorems -/

/-! ## Generic first-seen dedup lemmas -/

section DedupLemmas

variable {α β κ : Type} [DecidableEq κ] (key : α → κ)

theorem dedupSeen_append (seen : List κ) (s t : List α) :
    dedupSeen key seen (s ++ t) =
      dedupSeen key seen s ++ dedupSeen key (accKeys key seen s) t := by
  induction s generalizing seen with
  | nil => simp [dedupSeen, accKeys]
  | cons x xs ih =>
    simp only [List.cons_append, dedupSeen, accKeys]
    by_cases h : key x ∈ seen <;> simp [h, ih]

theorem accKeys_append (seen : List κ) (s t : List α) :
    accKeys key seen (s ++ t) = accKeys key (accKeys key seen s) t := by
  induction s generalizing seen with
  | nil => simp [accKeys]
  | cons x xs ih =>
    simp only [List.cons_append, accKeys]
    by_cases h : key x ∈ seen <;> simp [h, ih]

theorem mem_accKeys (seen : List κ) (s : List α) (k : κ) :
    k ∈ accKeys key seen s ↔ k ∈ seen ∨ k ∈ s.map key := by
  induction s generalizing seen with
  | nil => simp [accKeys]
  | cons x xs ih =>
    simp only [accKeys, List.map_cons, List.mem_cons]
    by_cases h : key x ∈ seen
    · simp only [h, if_true, ih]
      constructor
      · rintro (h1 | h1)
        · exact Or.inl h1
        · exact Or.inr (Or.inr h1)
      · rintro (h1 | h1 | h1)
        · exact Or.inl h1
        · exact Or.inl (h1 ▸ h)
        · exact Or.inr h1
    · simp only [h, if_false, ih, List.mem_cons]
      tauto

theorem dedupSeen_eq_nil (seen : List κ) (s : List α) (h : ∀ a ∈ s, key a ∈ seen) :
    dedupSeen key seen s = [] := by
  induction s with
  | nil => simp [dedupSeen]
  | cons x xs ih =>
    have hx : key x ∈ seen := h x (List.mem_cons_self _ _)
    simp only [dedupSeen, hx, if_true]
    exact ih fun a ha => h a (List.mem_cons_of_mem _ ha)

theorem accKeys_eq_self (seen : List κ) (s : List α) (h : ∀ a ∈ s, key a ∈ seen) :
    accKeys key seen s = seen := by
  induction s with
  | nil => simp [accKeys]
  | cons x xs ih =>
    have hx : key x ∈ seen := h x (List.mem_cons_self _ _)
    simp only [accKeys, hx, if_true]
    exact ih fun a ha => h a (List.mem_cons_of_mem _ ha)

theorem dedupSeen_eq_firstWins (seen : List κ) (s : List α) :
    dedupSeen key seen s = firstWins key (s.filter (fun a => key a ∉ seen)) := by
  induction s generalizing seen with
  | nil => simp [dedupSeen, firstWins]
  | cons x xs ih =>
    rw [List.filter_cons]
    by_cases h : key x ∈ seen
    · have hc : ¬(decide (key x ∉ seen) = true) := by simp [h]
      rw [if_neg hc]
      simp only [dedupSeen]
      rw [if_pos h]
      exact ih seen
    · have hc : decide (key x ∉ seen) = true := by simp [h]
      rw [if_pos hc]
      simp only [dedupSeen]
      rw [if_neg h, ih (key x :: seen)]
      conv_rhs => rw [firstWins]
      rw [List.filter_filter]
      have hpred : (fun a => decide (key a ≠ key x) && decide (key a ∉ seen))
          = (fun a => decide (key a ∉ key x :: seen)) := by
        funext a
        by_cases h1 : key a = key x <;> by_cases h2 : key a ∈ seen <;>
          simp [h1, h2]
      rw [hpred]

theorem dedupSeen_map (g : β → α) (keyB : β → κ) (hk : ∀ b, key (g b) = keyB b)
    (seen : List κ) (s : List β) :
    dedupSeen key seen (s.map g) = (dedupSeen keyB seen s).map g := by
  induction s generalizing seen with
  | nil => simp [dedupSeen]
  | cons x xs ih =>
    simp only [List.map_cons, dedupSeen, hk]
    by_cases h : keyB x ∈ seen <;> simp [h, ih]

theorem accKeys_map (g : β → α) (keyB : β → κ) (hk : ∀ b, key (g b) = keyB b)
    (seen : List κ) (s : List β) :
    accKeys key seen (s.map g) = accKeys keyB seen s := by
  induction s generalizing seen with
  | nil => simp [accKeys]
  | cons x xs ih =>
    simp only [List.map_cons, accKeys, hk]
    by_cases h : keyB x ∈ seen <;> simp [h, ih]

theorem mem_of_mem_firstWins (s : List α) (a : α) (h : a ∈ firstWins key s) : a ∈ s := by
  induction s using firstWins.induct key with
  | case1 => simp [firstWins] at h
  | case2 x xs ih =>
    rw [firstWins] at h
    rcases List.mem_cons.mp h with h1 | h1
    · exact h1 ▸ List.mem_cons_self _ _
    · exact List.mem_cons_of_mem _ (List.mem_of_mem_filter (ih h1))

theorem firstWins_keys_nodup (s : List α) : ((firstWins key s).map key).Nodup := by
  induction s using firstWins.induct key with
  | case1 => simp [firstWins]
  | case2 x xs ih =>
    rw [firstWins, List.map_cons]
    refine List.nodup_cons.mpr ⟨?_, ih⟩
    intro hmem
    rcases List.mem_map.mp hmem with ⟨b, hb, hkb⟩
    have hbf := mem_of_mem_firstWins key _ b hb
    have := List.of_mem_filter hbf
    simp only [decide_eq_true_eq] at this
    exact this hkb

theorem key_mem_firstWins (s : List α) (a : α) (h : a ∈ s) :
    key a ∈ (firstWins key s).map key := by
  induction s using firstWins.induct key with
  | case1 => simp at h
  | case2 x xs ih =>
    rw [firstWins, List.map_cons]
    rcases List.mem_cons.mp h with h1 | h1
    · exact h1 ▸ List.mem_cons_self _ _
    · by_cases hk : key a = key x
      · exact hk ▸ List.mem_cons_self _ _
      · refine List.mem_cons_of_mem _ (ih ?_)
        exact List.mem_filter.mpr ⟨h1, by simpa using hk⟩

theorem filter_split {p : α → Bool} :
    ∀ (xs t1 t2 : List α) (r : α), xs.filter p = t1 ++ r :: t2 →
      ∃ u1 u2, xs = u1 ++ r :: u2 ∧ u1.filter p = t1 := by
  intro xs
  induction xs with
  | nil =>
    intro t1 t2 r h
    rw [List.filter_nil] at h
    cases t1 <;> simp_all
  | cons y ys ih =>
    intro t1 t2 r h
    by_cases hy : p y
    · rw [List.filter_cons_of_pos hy] at h
      match t1, h with
      | [], h =>
        simp only [List.nil_append, List.cons.injEq] at h
        exact ⟨[], ys, by simp [h.1], by simp⟩
      | z :: t1h, h =>
        simp only [List.cons_append, List.cons.injEq] at h
        obtain ⟨u1, u2, hys, hf⟩ := ih t1h t2 r h.2
        exact ⟨y :: u1, u2, by simp [hys, h.1],
          by rw [List.filter_cons_of_pos hy, hf, h.1]⟩
    · rw [List.filter_cons_of_neg hy] at h
      obtain ⟨u1, u2, hys, hf⟩ := ih t1 t2 r h
      exact ⟨y :: u1, u2, by simp [hys], by rw [List.filter_cons_of_neg hy, hf]⟩

theorem firstWins_first_occ (s : List α) (a : α) (h : a ∈ firstWins key s) :
    ∃ u1 u2, s = u1 ++ a :: u2 ∧ ∀ b ∈ u1, key b ≠ key a := by
  induction s using firstWins.induct key with
  | case1 => simp [firstWins] at h
  | case2 x xs ih =>
    rw [firstWins] at h
    rcases List.mem_cons.mp h with h1 | h1
    · exact ⟨[], xs, by simp [h1], by simp⟩
    · have hax : key a ≠ key x := by
        have := List.of_mem_filter (mem_of_mem_firstWins key _ a h1)
        simpa using this
      obtain ⟨t1, t2, hft, ht1⟩ := ih h1
      obtain ⟨u1, u2, hxs, hfu⟩ := filter_split xs t1 t2 a hft
      refine ⟨x :: u1, u2, by simp [hxs], ?_⟩
      intro b hb
      rcases List.mem_cons.mp hb with hb1 | hb1
      · exact hb1 ▸ fun hc => hax hc.symm
      · by_cases hpb : key b ≠ key x
        · refine ht1 b ?_
          rw [← hfu]
          exact List.mem_filter.mpr ⟨hb1, by simpa using hpb⟩
        · push_neg at hpb
          exact fun hc => hax (hc.symm.trans hpb)

end DedupLemmas

/-! ## Bridging `combine_results` to the generic dedup -/

theorem combineLennarLoop_eq (seen : List MergeKey) (L : List LennarListing) :
    combineLennarLoop seen L =
      ((dedupSeen lennarKey seen L).map lennarToCombined, accKeys lennarKey seen L) := by
  induction L generalizing seen with
  | nil => simp [combineLennarLoop, dedupSeen, accKeys]
  | cons l ls ih =>
    simp only [combineLennarLoop, dedupSeen, accKeys]
    by_cases h : lennarKey l ∈ seen <;> simp [h, ih]

theorem combineZillowLoop_eq (seen : List MergeKey) (Z : List ZillowLennarListing) :
    combineZillowLoop seen Z =
      ((dedupSeen zillowKey seen Z).map zillowToCombined, accKeys zillowKey seen Z) := by
  induction Z generalizing seen with
  | nil => simp [combineZillowLoop, dedupSeen, accKeys]
  | cons l ls ih =>
    simp only [combineZillowLoop, dedupSeen, accKeys]
    by_cases h : zillowKey l ∈ seen <;> simp [h, ih]

theorem combine_results_eq_dedup (L : List LennarListing) (Z : List ZillowLennarListing) :
    combine_results L Z =
      (dedupSeen Prod.fst [] (keyedStream L Z)).map Prod.snd := by
  have hL : ∀ l : LennarListing,
      (Prod.fst ((fun l => (lennarKey l, lennarToCombined l)) l) : MergeKey) = lennarKey l :=
    fun _ => rfl
  have hZ : ∀ z : ZillowLennarListing,
      (Prod.fst ((fun z => (zillowKey z, zillowToCombined z)) z) : MergeKey) = zillowKey z :=
    fun _ => rfl
  rw [combine_results, keyedStream, dedupSeen_append, List.map_append,
    combineLennarLoop_eq, combineZillowLoop_eq,
    dedupSeen_map Prod.fst _ lennarKey hL,
    accKeys_map Prod.fst _ lennarKey hL,
    dedupSeen_map Prod.fst _ zillowKey hZ,
    List.map_map, List.map_map]
  rfl

theorem combinedKey_lennar (l : LennarListing) :
    combinedKey (lennarToCombined l) = lennarKey l := by
  simp [combinedKey, lennarToCombined, lennarKey]

theorem combinedKey_zillow (z : ZillowLennarListing) :
    combinedKey (zillowToCombined z) = zillowKey z := by
  simp only [combinedKey, zillowToCombined, zillowKey]
  rw [if_neg (by decide)]

theorem keyedStream_combinedKey (L : List LennarListing) (Z : List ZillowLennarListing)
    (p : MergeKey × CombinedRecord) (hp : p ∈ keyedStream L Z) :
    combinedKey p.2 = p.1 := by
  rcases List.mem_append.mp hp with h | h
  · rcases List.mem_map.mp h with ⟨l, _, hl⟩
    rw [← hl]
    exact combinedKey_lennar l
  · rcases List.mem_map.mp h with ⟨z, _, hz⟩
    rw [← hz]
    exact combinedKey_zillow z

theorem dedupSeen_nil_seen_eq_firstWins {α κ : Type} [DecidableEq κ] (key : α → κ)
    (s : List α) : dedupSeen key [] s = firstWins key s := by
  rw [dedupSeen_eq_firstWins]
  congr 1
  exact List.filter_eq_self.mpr (fun a _ => by simp)

theorem dedupSeen_dup_blocks {α κ : Type} [DecidableEq κ] (key : α → κ) (A B : List α) :
    dedupSeen key [] ((A ++ A) ++ (B ++ B)) = dedupSeen key [] (A ++ B) := by
  have hA : ∀ a ∈ A, key a ∈ accKeys key [] A := fun a ha =>
    (mem_accKeys key [] A (key a)).mpr (Or.inr (List.mem_map_of_mem key ha))
  have hB : ∀ b ∈ B, key b ∈ accKeys key (accKeys key [] A) B := fun b hb =>
    (mem_accKeys key _ B (key b)).mpr (Or.inr (List.mem_map_of_mem key hb))
  calc dedupSeen key [] ((A ++ A) ++ (B ++ B))
      = (dedupSeen key [] A ++ dedupSeen key (accKeys key [] A) A) ++
          (dedupSeen key (accKeys key (accKeys key [] A) A) B ++
            dedupSeen key (accKeys key (accKeys key (accKeys key [] A) A) B) B) := by
        rw [dedupSeen_append, dedupSeen_append, accKeys_append, dedupSeen_append]
    _ = (dedupSeen key [] A ++ []) ++
          (dedupSeen key (accKeys key [] A) B ++ []) := by
        rw [dedupSeen_eq_nil key _ A hA, accKeys_eq_self key _ A hA,
          dedupSeen_eq_nil key _ B hB]
    _ = dedupSeen key [] A ++ dedupSeen key (accKeys key [] A) B := by simp
    _ = dedupSeen key [] (A ++ B) := (dedupSeen_append key [] A B).symm

/-! ## Claim C1 -/

/-- Claim C1 is falsified by the code: `combine_results` keys on the raw
price display string, not `priceNumeric`, with no normalization, and has no
unconditional-keep path.  Two records with no address, no community name and
no price (spec key `none` — unmatchable, so the claim says both appear) are
collapsed to one output record; two records sharing the spec identity key
(same address, same numeric price, different display strings) are NOT
deduplicated. -/
theorem combine_identity_key_counterexample :
    lennarSpecKey cNoKey1 = none ∧ lennarSpecKey cNoKey2 = none ∧
    (combine_results [cNoKey1, cNoKey2] []).length = 1 ∧
    lennarSpecKey dPrice1 = lennarSpecKey dPrice2 ∧ dPrice1 ≠ dPrice2 ∧
    (combine_results [dPrice1, dPrice2] []).length = 2 := by
  decide

/-- Claim C1, amended: the merge's identity key is the pair of the raw price
display string with `location or community_name` for Lennar records and
`address` for Zillow records, compared exactly (case- and
whitespace-sensitively); every record — including records with empty
address/community or absent price — participates in first-seen
deduplication under this key.  Formally, `combine_results` equals the
declarative first-seen-wins dedup of the keyed input stream. -/
theorem combine_results_code_key (L : List LennarListing) (Z : List ZillowLennarListing) :
    combine_results L Z = (firstWins Prod.fst (keyedStream L Z)).map Prod.snd := by
  rw [combine_results_eq_dedup, dedupSeen_nil_seen_eq_firstWins]

/-! ## Claim C2 -/

/-- Claim C2 (confirmed): the merge is first-seen-wins.  Merging each stream
concatenated with a duplicate of itself yields exactly the same output as
merging once; output records carry pairwise-distinct merge keys; every
output record is the converted form (fields unchanged) of the first stream
element bearing its key (Lennar stream before Zillow stream, intra-stream
input order); and every input key is represented in the output by its first
bearer. -/
theorem combine_results_first_seen (L : List LennarListing) (Z : List ZillowLennarListing) :
    combine_results (L ++ L) (Z ++ Z) = combine_results L Z ∧
    ((combine_results L Z).map combinedKey).Nodup ∧
    (∀ r ∈ combine_results L Z, ∃ k u1 u2,
      keyedStream L Z = u1 ++ (k, r) :: u2 ∧ ∀ q ∈ u1, q.1 ≠ k) ∧
    (∀ p ∈ keyedStream L Z, ∃ r ∈ combine_results L Z, combinedKey r = p.1) := by
  refine ⟨?_, ?_, ?_, ?_⟩
  · rw [combine_results_eq_dedup, combine_results_eq_dedup]
    have hs : keyedStream (L ++ L) (Z ++ Z) =
        (L.map (fun l => (lennarKey l, lennarToCombined l)) ++
          L.map (fun l => (lennarKey l, lennarToCombined l))) ++
        (Z.map (fun z => (zillowKey z, zillowToCombined z)) ++
          Z.map (fun z => (zillowKey z, zillowToCombined z))) := by
      simp [keyedStream]
    rw [hs, keyedStream, dedupSeen_dup_blocks]
  · rw [combine_results_eq_dedup, dedupSeen_nil_seen_eq_firstWins, List.map_map]
    have hmap : List.map (combinedKey ∘ Prod.snd) (firstWins Prod.fst (keyedStream L Z)) =
        List.map Prod.fst (firstWins Prod.fst (keyedStream L Z)) := by
      apply List.map_congr_left
      intro p hp
      exact keyedStream_combinedKey L Z p (mem_of_mem_firstWins _ _ p hp)
    rw [hmap]
    exact firstWins_keys_nodup _ _
  · intro r hr
    rw [combine_results_eq_dedup, dedupSeen_nil_seen_eq_firstWins] at hr
    rcases List.mem_map.mp hr with ⟨p, hp, hps⟩
    obtain ⟨u1, u2, hdec, hkey⟩ := firstWins_first_occ Prod.fst _ p hp
    exact ⟨p.1, u1, u2, by rw [hdec, ← hps], hkey⟩
  · intro p hp
    have h4 := key_mem_firstWins Prod.fst (keyedStream L Z) p hp
    rcases List.mem_map.mp h4 with ⟨q, hq, hqk⟩
    refine ⟨q.2, ?_, ?_⟩
    · rw [combine_results_eq_dedup, dedupSeen_nil_seen_eq_firstWins]
      exact List.mem_map_of_mem Prod.snd hq
    · rw [keyedStream_combinedKey L Z q (mem_of_mem_firstWins _ _ q hq)]
      exact hqk

/-- Witness for C2: duplicating a concrete Lennar stream and a concrete
Zillow stream leaves the merged output unchanged. -/
theorem combine_results_first_seen_witness :
    combine_results ([cNoKey1] ++ [cNoKey1]) ([wZillow1] ++ [wZillow1]) =
      combine_results [cNoKey1] [wZillow1] :=
  (combine_results_first_seen [cNoKey1] [wZillow1]).1

/-! ## Claim C10 -/

/-- Claim C10 (confirmed): a single Zillow location search returns listings
with pairwise-distinct `(address, zip_code)` pairs; the result is the
first-seen dedup of card-derived listings followed by script-derived
listings, and each returned record is the first occurrence of its pair in
that order. -/
theorem search_zillow_dedup (cards : List ZCard) (script : List ZillowLennarListing)
    (bf : Bool) :
    search_zillow_new_construction cards script bf =
      firstWins zillowSearchKey (zillowCardListings cards bf ++ script) ∧
    ((search_zillow_new_construction cards script bf).map zillowSearchKey).Nodup ∧
    ∀ r ∈ search_zillow_new_construction cards script bf,
      ∃ u1 u2, zillowCardListings cards bf ++ script = u1 ++ r :: u2 ∧
        ∀ b ∈ u1, zillowSearchKey b ≠ zillowSearchKey r := by
  have h1 : search_zillow_new_construction cards script bf =
      firstWins zillowSearchKey (zillowCardListings cards bf ++ script) := by
    rw [search_zillow_new_construction, dedupSeen_nil_seen_eq_firstWins]
  refine ⟨h1, ?_, ?_⟩
  · rw [h1]
    exact firstWins_keys_nodup _ _
  · intro r hr
    rw [h1] at hr
    exact firstWins_first_occ _ _ r hr

/-- Witness for C10: with a duplicated script listing the returned pairs are
still distinct. -/
theorem search_zillow_dedup_witness :
    ((search_zillow_new_construction [] [wZillow1, wZillow1] true).map
      zillowSearchKey).Nodup :=
  (search_zillow_dedup [] [wZillow1, wZillow1] true).2.1

/-! ## Claims C3 and C4 -/

theorem exn_of_isFail (f : Nat → AttemptResult) (i : Nat)
    (h : (f i).isFail = true) : ∃ kd, f i = .exn kd := by
  cases hf : f i with
  | ok r => rw [hf] at h; simp [AttemptResult.isFail] at h
  | exn kd => exact ⟨kd, rfl⟩

/-- Claim C3 is falsified by the code: with the default `retry_count = 3`,
3 consecutive transient failures exhaust all attempts — the loop returns
`None` after sleeps of 1s and 2s, and the success that follows is never
attempted (the claim asserts exactly one final successful result). -/
theorem make_request_three_failures_counterexample :
    (make_request failThriceThenOk).result = none ∧
    (make_request failThriceThenOk).sleeps = [1, 2] ∧
    (make_request failThriceThenOk).numAttempts = 3 := by
  decide

/-- Claim C3, amended: `retry_count` (default 3) bounds the total number of
attempts, i.e. up to 2 retries; sleeps of `2 ^ attempt` seconds (1s, 2s)
separate consecutive attempts and form a strictly increasing sequence; `k ≤ 2`
consecutive transient failures followed by a success yield exactly one
successful result after `k` backoff delays, while 3 consecutive failures
yield `None` after 2 delays. -/
theorem make_request_retry_backoff (f : Nat → AttemptResult) (r k : Nat)
    (hfail : ∀ i, i < k → (f i).isFail = true) :
    (k ≤ 2 → f k = .ok r →
      (make_request f).result = some r ∧
      (make_request f).sleeps = (List.range k).map (fun i => 2 ^ i) ∧
      (make_request f).sleeps.Pairwise (· < ·) ∧
      (make_request f).numAttempts = k + 1) ∧
    (k = 3 →
      (make_request f).result = none ∧
      (make_request f).sleeps = [1, 2] ∧
      (make_request f).numAttempts = 3) := by
  constructor
  · intro hk hok
    interval_cases k
    · simp [make_request, makeRequestLoop, hok]
    · obtain ⟨k0, h0⟩ := exn_of_isFail f 0 (hfail 0 (by omega))
      refine ⟨?_, ?_, ?_, ?_⟩ <;>
        simp [make_request, makeRequestLoop, h0, hok, List.range_succ]
    · obtain ⟨k0, h0⟩ := exn_of_isFail f 0 (hfail 0 (by omega))
      obtain ⟨k1, h1⟩ := exn_of_isFail f 1 (hfail 1 (by omega))
      refine ⟨?_, ?_, ?_, ?_⟩ <;>
        simp [make_request, makeRequestLoop, h0, h1, hok, List.range_succ]
  · intro hk
    subst hk
    obtain ⟨k0, h0⟩ := exn_of_isFail f 0 (hfail 0 (by omega))
    obtain ⟨k1, h1⟩ := exn_of_isFail f 1 (hfail 1 (by omega))
    obtain ⟨k2, h2⟩ := exn_of_isFail f 2 (hfail 2 (by omega))
    refine ⟨?_, ?_, ?_⟩ <;> simp [make_request, makeRequestLoop, h0, h1, h2]

/-- Witness for C3: 2 transient failures then a success give one successful
result with the strictly increasing delays 1s, 2s. -/
theorem make_request_retry_backoff_witness :
    (make_request failTwiceThenOk).result = some 200 ∧
    (make_request failTwiceThenOk).sleeps = [1, 2] := by
  have h := (make_request_retry_backoff failTwiceThenOk 200 2 (by decide)).1
    (by omega) (by decide)
  exact ⟨h.1, by rw [h.2.1]; decide⟩

theorem makeRequestLoop_shape (f g : Nat → AttemptResult)
    (h : ∀ i, sameShape (f i) (g i)) :
    ∀ rem a, makeRequestLoop f rem a = makeRequestLoop g rem a := by
  intro rem
  induction rem with
  | zero => intro a; rfl
  | succ n ih =>
    intro a
    have hsh := h a
    cases hf : f a with
    | ok r =>
      cases hg : g a with
      | ok s =>
        rw [hf, hg] at hsh
        simp only [sameShape] at hsh
        subst hsh
        simp only [makeRequestLoop, hf, hg]
      | exn kd =>
        rw [hf, hg] at hsh
        simp [sameShape] at hsh
    | exn kd =>
      cases hg : g a with
      | ok s =>
        rw [hf, hg] at hsh
        simp [sameShape] at hsh
      | exn kd2 =>
        simp only [makeRequestLoop, hf, hg, ih]

/-- Claim C4 is falsified by the code: a structurally failing request (for
instance a malformed URL raising `MissingSchema`, a `RequestException`
subclass) is retried like any other failure — 3 attempts and 2 backoff
sleeps, not one attempt with an immediate surface. -/
theorem make_request_structural_retry_counterexample :
    (make_request (fun _ => AttemptResult.exn FailKind.badUrl)).numAttempts = 3 ∧
    (make_request (fun _ => AttemptResult.exn FailKind.badUrl)).sleeps = [1, 2] ∧
    (make_request (fun _ => AttemptResult.exn FailKind.badUrl)).result = none := by
  decide

/-- Claim C4, amended: `_make_request` is blind to the failure class — every
`RequestException` (transient, malformed URL, or 4xx other than 429 alike) is
caught and retried up to the same bound, and the failure surfaces (as `None`)
only after all attempts; in particular an always-structurally-failing request
still gets 3 attempts and 2 backoff sleeps. -/
theorem make_request_kind_blind (f g : Nat → AttemptResult)
    (hfg : ∀ i, sameShape (f i) (g i)) :
    make_request f = make_request g ∧
    (make_request (fun _ => AttemptResult.exn FailKind.clientError)).numAttempts = 3 ∧
    (make_request (fun _ => AttemptResult.exn FailKind.clientError)).sleeps = [1, 2] ∧
    (make_request (fun _ => AttemptResult.exn FailKind.clientError)).result = none := by
  exact ⟨makeRequestLoop_shape f g hfg 3 0, by decide, by decide, by decide⟩

/-- Witness for C4: an all-transient and an all-malformed-URL run produce
identical traces. -/
theorem make_request_kind_blind_witness :
    make_request (fun _ => AttemptResult.exn FailKind.transient) =
      make_request (fun _ => AttemptResult.exn FailKind.badUrl) :=
  (make_request_kind_blind (fun _ => AttemptResult.exn FailKind.transient)
    (fun _ => AttemptResult.exn FailKind.badUrl) (fun _ => trivial)).1

/-! ## Claim C5 -/

theorem scrollLoop_stops (h : Nat → Nat) (k : Nat) (hstab : h (k + 1) = h k)
    (hgrow : ∀ j, j < k → h (j + 1) ≠ h j) :
    ∀ fuel c, c ≤ k → k - c < fuel → lennarScrollLoop h fuel (h c) c = some (k + 1) := by
  intro fuel
  induction fuel with
  | zero => intro c hc hf; omega
  | succ n ih =>
    intro c hc hf
    simp only [lennarScrollLoop]
    rcases Nat.lt_or_ge c k with hck | hck
    · rw [if_neg (hgrow c hck)]
      exact ih (c + 1) (by omega) (by omega)
    · have hck2 : c = k := by omega
      subst hck2
      rw [if_pos hstab]

theorem scrollLoop_diverges (h : Nat → Nat) (hg : ∀ n, h (n + 1) ≠ h n) :
    ∀ fuel c, lennarScrollLoop h fuel (h c) c = none := by
  intro fuel
  induction fuel with
  | zero => intro c; rfl
  | succ n ih =>
    intro c
    simp only [lennarScrollLoop]
    rw [if_neg (hg c)]
    exact ih (c + 1)

/-- Claim C5 is falsified by the code: the Lennar scroll loop has no trigger
cap at all — on ever-growing content it is still running after 150 triggers
(the claim promises termination at a 100-trigger cap); content that stops
growing after its 3rd trigger takes 4 triggers, not 3 (the stability
observation costs one more trigger); and the Zillow loop always performs
exactly 5 triggers with no stability check. -/
theorem scroll_loop_counterexample :
    lennarScrollCount (fun n => n) 150 = none ∧
    lennarScrollCount (fun n => 10 * min n 3) 150 = some 4 ∧
    zillowScrollTriggers = 5 := by
  decide

/-- Claim C5, amended: the Lennar scroll loop terminates exactly when the
observed content height repeats between consecutive observations — if the
height first stabilizes at trigger `k` (growth at every earlier trigger),
the loop performs exactly `k + 1` triggers; there is no trigger cap, so
content whose height never repeats loops forever; the Zillow scroll loop
unconditionally performs exactly 5 triggers. -/
theorem scroll_loop_termination (h : Nat → Nat) (k fuel : Nat) :
    (h (k + 1) = h k → (∀ j, j < k → h (j + 1) ≠ h j) → k < fuel →
      lennarScrollCount h fuel = some (k + 1)) ∧
    ((∀ n, h (n + 1) ≠ h n) → lennarScrollCount h fuel = none) ∧
    zillowScrollTriggers = 5 := by
  refine ⟨?_, ?_, rfl⟩
  · intro h1 h2 h3
    exact scrollLoop_stops h k h1 h2 fuel 0 (Nat.zero_le k) (by omega)
  · intro hg
    exact scrollLoop_diverges h hg fuel 0

/-- Witness for C5: a source stabilizing after its 3rd trigger terminates
with 4 triggers; strictly growing content exhausts any fuel. -/
theorem scroll_loop_termination_witness :
    lennarScrollCount (fun n => 10 * min n 3) 10 = some 4 ∧
    lennarScrollCount (fun n => n) 7 = none := by
  constructor
  · exact (scroll_loop_termination (fun n => 10 * min n 3) 3 10).1
      (by decide) (by decide) (by decide)
  · exact (scroll_loop_termination (fun n => n) 0 7).2.1
      (fun n => Nat.succ_ne_self n)

/-! ## Claim C6 -/

theorem scrapeCommunityList_eq (fetch : String → Except String (List LennarListing))
    (cs : List String) :
    scrapeCommunityList fetch cs =
      (cs.map (fun c =>
        match fetch c with
        | .ok ls => ls
        | .error _ => [])).flatten := by
  induction cs with
  | nil => simp [scrapeCommunityList]
  | cons c rest ih =>
    cases hf : fetch c <;> simp [scrapeCommunityList, hf, ih]

theorem scrape_multiple_locations_eq
    (search : String → Except String (List ZillowLennarListing)) (locs : List String) :
    scrape_multiple_locations search locs =
      (locs.map (fun loc =>
        match search loc with
        | .ok ls => ls
        | .error _ => [])).flatten := by
  induction locs with
  | nil => simp [scrape_multiple_locations]
  | cons c rest ih =>
    cases hf : search c <;> simp [scrape_multiple_locations, hf, ih]

/-- Claim C6 (confirmed): node failures are isolated.  Each crawl equals the
concatenation of its per-node results with failed nodes contributing nothing
(so the crawl never aborts); with 5 communities whose 2nd always fails the
crawl yields the full results of nodes 1, 3, 4, 5; and a failed fetch for a
community yields the empty listing list rather than an exception. -/
theorem crawl_fault_isolation :
    (∀ (get_communities : String → List String)
       (fetch : String → Except String (List LennarListing)) (states : List String),
      scrape_all_listings get_communities fetch states =
        (states.map (fun st =>
          ((get_communities st).map (fun c =>
            match fetch c with
            | .ok ls => ls
            | .error _ => [])).flatten)).flatten) ∧
    (∀ (fetch : String → Except String (List LennarListing))
       (c1 c2 c3 c4 c5 : String) (r1 r3 r4 r5 : List LennarListing) (e : String),
      fetch c1 = .ok r1 → fetch c2 = .error e → fetch c3 = .ok r3 →
      fetch c4 = .ok r4 → fetch c5 = .ok r5 →
      scrapeCommunityList fetch [c1, c2, c3, c4, c5] = r1 ++ r3 ++ r4 ++ r5) ∧
    (∀ community_name city state zip_code,
      get_listings_from_community none community_name city state zip_code = []) ∧
    (∀ (search : String → Except String (List ZillowLennarListing)) (locs : List String),
      scrape_multiple_locations search locs =
        (locs.map (fun loc =>
          match search loc with
          | .ok ls => ls
          | .error _ => [])).flatten) := by
  refine ⟨?_, ?_, fun _ _ _ _ => rfl, scrape_multiple_locations_eq⟩
  · intro gc fetch states
    induction states with
    | nil => simp [scrape_all_listings]
    | cons st rest ih => simp [scrape_all_listings, ih, scrapeCommunityList_eq]
  · intro fetch c1 c2 c3 c4 c5 r1 r3 r4 r5 e h1 h2 h3 h4 h5
    simp [scrapeCommunityList, h1, h2, h3, h4, h5]

/-- Witness for C6: the concrete fetcher `wFetch` fails on node `"c2"` and
the 5-node crawl still returns the results of nodes 1, 3, 4, 5. -/
theorem crawl_fault_isolation_witness :
    scrapeCommunityList wFetch ["c1", "c2", "c3", "c4", "c5"] =
      [wCommunityListing "c1"] ++ [wCommunityListing "c3"] ++
        [wCommunityListing "c4"] ++ [wCommunityListing "c5"] :=
  crawl_fault_isolation.2.1 wFetch "c1" "c2" "c3" "c4" "c5"
    [wCommunityListing "c1"] [wCommunityListing "c3"] [wCommunityListing "c4"]
    [wCommunityListing "c5"] "node failure" rfl rfl rfl rfl rfl

/-! ## Claim C7 -/

theorem foldl_digits_eq (ds : List Char) :
    ∀ acc, ds.foldl (fun a c => 10 * a + (c.toNat - 48)) acc =
      acc * 10 ^ ds.length +
        Nat.ofDigits 10 ((ds.map (fun c => c.toNat - 48)).reverse) := by
  induction ds with
  | nil => intro acc; simp [Nat.ofDigits]
  | cons c t ih =>
    intro acc
    simp only [List.foldl_cons, List.map_cons, List.reverse_cons, List.length_cons]
    rw [ih (10 * acc + (c.toNat - 48)), Nat.ofDigits_append]
    simp only [Nat.ofDigits_singleton, List.length_reverse, List.length_map]
    ring

theorem digitsToNat_eq_ofDigits (ds : List Char) :
    digitsToNat ds = Nat.ofDigits 10 ((ds.map (fun c => c.toNat - 48)).reverse) := by
  rw [digitsToNat, foldl_digits_eq]
  simp

theorem parse_price_eq_none_iff (s : String) :
    parse_price s = none ↔ s.toList.filter Char.isDigit = [] := by
  simp only [parse_price]
  by_cases hf : (s.toList.filter Char.isDigit).isEmpty
  · simp [hf, List.isEmpty_iff.mp hf]
  · have hne : s.toList.filter Char.isDigit ≠ [] := by
      simpa [List.isEmpty_iff] using hf
    simp [hf, hne]

/-- Claim C7 (confirmed): `parse_price` strips every non-digit character and
returns the decimal value of the remaining digit string (standard positional
semantics, so `.` is stripped like any other non-digit, never interpreted);
it returns `None` exactly when no digit remains; the Zillow `_extract_price`
agrees with it everywhere; and the two quoted examples evaluate as stated. -/
theorem parse_price_spec (s : String) :
    (parse_price s = none ↔ ∀ c ∈ s.toList, c.isDigit = false) ∧
    extract_price s = parse_price s ∧
    parse_price s = (if s.toList.filter Char.isDigit = [] then none
      else some (Nat.ofDigits 10
        (((s.toList.filter Char.isDigit).map (fun c => c.toNat - 48)).reverse))) ∧
    parse_price "$1,234,567" = some 1234567 ∧
    parse_price "Call for price" = none := by
  refine ⟨?_, rfl, ?_, by decide, by decide⟩
  · rw [parse_price_eq_none_iff, List.filter_eq_nil_iff]
    simp
  · by_cases hf : s.toList.filter Char.isDigit = []
    · rw [if_pos hf, parse_price_eq_none_iff]
      exact hf
    · have hne : ¬(s.toList.filter Char.isDigit).isEmpty = true := by
        simpa [List.isEmpty_iff] using hf
    
      rw [if_neg hf]
      simp only [parse_price, hne, if_false]
      rw [digitsToNat_eq_ofDigits]
      simp

/-! ## Claim C8 -/

theorem containsSub_iff (hay sub : List Char) :
    containsSub hay sub = true ↔ ∃ pre post, hay = pre ++ sub ++ post := by
  induction hay with
  | nil =>
    simp only [containsSub, List.isEmpty_iff]
    constructor
    · intro h
      exact ⟨[], [], by simp [h]⟩
    · rintro ⟨pre, post, h⟩
      rcases List.append_eq_nil.mp (List.append_eq_nil.mp h.symm).1 with ⟨-, h2⟩
      exact h2
  | cons c t ih =>
    simp only [containsSub, Bool.or_eq_true]
    constructor
    · rintro (hp | hc)
      · obtain ⟨rest, hrest⟩ := List.isPrefixOf_iff_prefix.mp hp
        exact ⟨[], rest, by simp [hrest]⟩
      · rcases ih.mp hc with ⟨pre, post, hpre⟩
        exact ⟨c :: pre, post, by simp [hpre]⟩
    · rintro ⟨pre, post, hpre⟩
      cases pre with
      | nil =>
        left
        apply List.isPrefixOf_iff_prefix.mpr
        exact ⟨post, by simpa using hpre.symm⟩
      | cons p ps =>
        right
        apply ih.mpr
        simp only [List.cons_append, List.cons.injEq] at hpre
        exact ⟨ps, post, hpre.2⟩

theorem hasKeyword_iff (s kw : String) :
    hasKeyword s kw ↔ containsSub (lowerList s) kw.toList = true := by
  unfold hasKeyword
  exact (containsSub_iff (lowerList s) kw.toList).symm

/-- Claim C8 is falsified by the code: the two scrapers do not apply the
same inference.  On text containing both a townhome and a condo keyword the
Lennar scraper infers `"Townhome"` while the Zillow scraper infers
`"Condominium"` (different priority); and on text with no keyword the Lennar
scraper defaults to `"Single Family"` while the Zillow scraper leaves the
house type empty. -/
theorem house_type_counterexample :
    lennarInferHouseType "Townhome and condo units" = "Townhome" ∧
    zillowInferHouseType "Townhome and condo units" = "Condominium" ∧
    lennarInferHouseType "A lovely property" = "Single Family" ∧
    zillowInferHouseType "A lovely property" = "" := by
  decide

/-- Claim C8, amended: the Lennar inference checks townhome/townhouse, then
condo, then defaults to `"Single Family"` (never empty); the Zillow inference
checks condo first, then townhouse/townhome, then a bare `"house"` or
`"single family"` keyword, and with no keyword leaves the house type empty.
The two differ in keyword priority, in Zillow's extra `"house"` keyword, and
in the default. -/
theorem house_type_inference_rules (s : String) :
    lennarInferHouseType s ≠ "" ∧
    ((hasKeyword s "townhome" ∨ hasKeyword s "townhouse") →
      lennarInferHouseType s = "Townhome") ∧
    (¬(hasKeyword s "townhome" ∨ hasKeyword s "townhouse") → hasKeyword s "condo" →
      lennarInferHouseType s = "Condominium") ∧
    (¬(hasKeyword s "townhome" ∨ hasKeyword s "townhouse") → ¬hasKeyword s "condo" →
      lennarInferHouseType s = "Single Family") ∧
    (hasKeyword s "condo" → zillowInferHouseType s = "Condominium") ∧
    (¬hasKeyword s "condo" → (hasKeyword s "townhouse" ∨ hasKeyword s "townhome") →
      zillowInferHouseType s = "Townhome") ∧
    (¬hasKeyword s "condo" → ¬(hasKeyword s "townhouse" ∨ hasKeyword s "townhome") →
      (hasKeyword s "house" ∨ hasKeyword s "single family") →
      zillowInferHouseType s = "Single Family") ∧
    (¬hasKeyword s "condo" → ¬(hasKeyword s "townhouse" ∨ hasKeyword s "townhome") →
      ¬(hasKeyword s "house" ∨ hasKeyword s "single family") →
      zillowInferHouseType s = "") := by
  simp only [hasKeyword_iff, not_or, Bool.not_eq_true]
  refine ⟨?_, ?_, ?_, ?_, ?_, ?_, ?_, ?_⟩
  · unfold lennarInferHouseType
    split
    · decide
    split
    · decide
    split <;> decide
  · rintro (h | h) <;> (unfold lennarInferHouseType; rw [h]; simp)
  · rintro ⟨h1, h2⟩ h3
    unfold lennarInferHouseType
    rw [h1, h2, h3]
    simp
  · rintro ⟨h1, h2⟩ h3
    unfold lennarInferHouseType
    rw [h1, h2, h3]
    simp
  · intro h
    unfold zillowInferHouseType
    rw [h]
    simp
  · rintro h1 (h | h) <;> (unfold zillowInferHouseType; rw [h1, h]; simp)
  · rintro h1 ⟨h2, h3⟩ (h | h) <;> (unfold zillowInferHouseType; rw [h1, h2, h3, h]; simp)
  · rintro h1 ⟨h2, h3⟩ ⟨h4, h5⟩
    unfold zillowInferHouseType
    rw [h1, h2, h3, h4, h5]
    simp

/-- Witness for C8: the keyword rules applied at concrete texts. -/
theorem house_type_inference_rules_witness :
    lennarInferHouseType "new townhome here" = "Townhome" ∧
    zillowInferHouseType "spacious condo" = "Condominium" := by
  constructor
  · exact (house_type_inference_rules "new townhome here").2.1
      (Or.inl ⟨"new ".toList, " here".toList, by decide⟩)
  · exact (house_type_inference_rules "spacious condo").2.2.2.2.1
      ⟨"spacious ".toList, [], by decide⟩

/-! ## Claim C9 -/

/-- Claim C9 (confirmed): the per-card parsers are total at the extraction
boundary — any exception while parsing a card yields `None`, so a document
whose cards all raise yields zero records rather than a crash; and a card
becomes a record only when a meaningful field was recovered (the Lennar
parser requires plan name, price or community name to be nonempty; the
Zillow parser requires a nonempty address), so every emitted record has at
least one of plan name, price, community name or address set. -/
theorem parse_card_totality :
    (∀ (card : Card) community_name city state zip_code, card.raises = true →
      parse_home_card card community_name city state zip_code = none) ∧
    (∀ (card : Card) community_name city state zip_code l,
      parse_home_card card community_name city state zip_code = some l →
      l.plan_name ≠ "" ∨ l.price ≠ "" ∨ l.community_name ≠ "" ∨ l.location ≠ "") ∧
    (∀ (doc : CommunityDoc) community_name city state zip_code,
      (∀ c ∈ doc.homeCards, c.raises = true) →
      (∀ c ∈ doc.planCards, c.raises = true) →
      (∀ c ∈ doc.qmiCards, c.raises = true) →
      get_listings_from_community (some doc) community_name city state zip_code = []) ∧
    (∀ card : ZCard, card.raises = true → parse_zillow_card card = none) ∧
    (∀ (card : ZCard) l, parse_zillow_card card = some l → l.address ≠ "") := by
  have hlennar_raises : ∀ (card : Card) cn ci st zp, card.raises = true →
      parse_home_card card cn ci st zp = none := by
    intro card cn ci st zp h
    simp [parse_home_card, h]
  refine ⟨hlennar_raises, ?_, ?_, ?_, ?_⟩
  · intro card cn ci st zp l h
    by_cases hr : card.raises
    · rw [hlennar_raises card cn ci st zp hr] at h
      exact absurd h (by simp)
    · rw [parse_home_card, if_neg (by simpa using hr)] at h
      by_cases hm : (buildLennarListing card cn ci st zp).plan_name ≠ "" ∨
          (buildLennarListing card cn ci st zp).price ≠ "" ∨
          (buildLennarListing card cn ci st zp).community_name ≠ ""
      · rw [if_pos hm] at h
        obtain rfl := Option.some.inj h
        rcases hm with h1 | h1 | h1
        exacts [Or.inl h1, Or.inr (Or.inl h1), Or.inr (Or.inr (Or.inl h1))]
      · rw [if_neg hm] at h
        exact absurd h (by simp)
  · intro doc cn ci st zp h1 h2 h3
    simp only [get_listings_from_community]
    rw [List.filterMap_eq_nil_iff.mpr
        (fun c hc => hlennar_raises c cn ci st zp (h1 c hc)),
      List.filterMap_eq_nil_iff.mpr
        (fun c hc => hlennar_raises c cn ci st zp (h2 c hc)),
      List.filterMap_eq_nil_iff.mpr (fun c hc => by
        rw [hlennar_raises c cn ci st zp (h3 c hc)]
        rfl)]
    rfl
  · intro card h
    simp [parse_zillow_card, h]
  · intro card l h
    by_cases hr : card.raises
    · simp [parse_zillow_card, hr] at h
    · rw [parse_zillow_card, if_neg (by simpa using hr)] at h
      by_cases ha : (buildZillowListing card).address ≠ ""
      · rw [if_pos ha] at h
        obtain rfl := Option.some.inj h
        exact ha
      · rw [if_neg ha] at h
        exact absurd h (by simp)

/-- Witness for C9: concrete malformed cards yield no record. -/
theorem parse_card_totality_witness :
    parse_home_card wBadCard "Sunset Ridge" "" "" "" = none ∧
    parse_zillow_card wBadZCard = none :=
  ⟨parse_card_totality.1 wBadCard "Sunset Ridge" "" "" "" rfl,
   parse_card_totality.2.2.2.1 wBadZCard rfl⟩
